import Mathlib

/-!
Shallow embedding of the `wsd` command-line WebSocket client (package `main`,
two source variants: `main.go` and the channel-based variant) for checking the
natural-language specification against the code.

Modelling conventions:
- Byte sequences (Go `[]byte`) are `List Nat`.
- Go `error` values are the inductive `Wsd.Err`: the `io.EOF` sentinel is the
  constructor `Err.eof`; every other error value is `Err.other s` carrying its
  rendered message.  Go compares errors to the sentinel by identity
  (`err == io.EOF`), which the constructor distinction captures: an
  `Err.other "EOF"` is a different value from `Err.eof`.
- Output to stdout is a list of `OutChunk`s (raw byte writes vs formatted
  text); output to stderr is accumulated as a `String`.
- `os.Exit(code)` is modelled as an `Option Nat` exit code; crucially, in Go
  `os.Exit` does NOT run deferred functions, which the session model
  (`mainExec`) reflects.
- The WebSocket library itself (dial, frame decoding) is an external
  collaborator per the spec; only its read delivery contract is modelled
  (`wsRead`), from the spec's words.
-/

namespace Wsd

/-- A Go `error` value as seen by this program: the `io.EOF` sentinel or any
other error value with its rendered message. -/
inductive Err where
  | eof : Err
  | other : String → Err
deriving DecidableEq, Repr

/-- Rendering of an error value (`%v` on a Go error), as used in the
`fmt.Fprintf` calls of `printError`/`printErrors`.  `io.EOF.Error()` is
`"EOF"`. -/
def errText : Err → String
  | Err.eof => "EOF"
  | Err.other s => s

/-- Colored-text rendering is explicitly out of scope in the spec (an external
collaborator, `fatih/color`); the `SprintFunc` wrappers are modelled as the
identity on the wrapped text. -/
def red (s : String) : String := s

/-- See `red`: color wrapping modelled as identity. -/
def magenta (s : String) : String := s

/-- See `red`: color wrapping modelled as identity. -/
def green (s : String) : String := s

/-- See `red`: color wrapping modelled as identity. -/
def yellow (s : String) : String := s

/-- See `red`: color wrapping modelled as identity. -/
def cyan (s : String) : String := s

/-- A chunk written to stdout: either a raw byte write (`os.Stdout.Write` /
`fmt.Printf "%s" (string msg)` on message bytes) or formatted text. -/
inductive OutChunk where
  | bytes : List Nat → OutChunk
  | text : String → OutChunk
deriving DecidableEq, Repr

/-- The effect of one error through the error sink (`printError` in `main.go`,
the loop body of `printErrors` in the channel variant):

```go
if err == io.EOF {
    fmt.Fprintf(os.Stderr, "\r✝ %v - connection closed by remote\n", magenta(err))
    os.Exit(0)
} else {
    fmt.Fprintf(os.Stderr, "\rerr %v\n", red(err))
    if !raw {
        fmt.Printf("> ")
    }
}
```
-/
structure ErrOutput where
  stderrText : String
  stdoutChunks : List OutChunk
  exitCode : Option Nat
deriving DecidableEq, Repr

/-- Embeds `printError` (`main.go` lines 66-76; same code is the loop body of
`printErrors` in the channel variant, lines 66-74). -/
def printError (raw : Bool) (err : Err) : ErrOutput :=
  if err = Err.eof then
    { stderrText := "\r✝ " ++ magenta (errText err) ++ " - connection closed by remote\n"
      stdoutChunks := []
      exitCode := some 0 }
  else
    { stderrText := "\rerr " ++ red (errText err) ++ "\n"
      stdoutChunks := if raw then [] else [OutChunk.text "> "]
      exitCode := none }

/-- Accumulated effect of the error-sink loop: stderr text, stdout chunks, and
whether (and with which code) `os.Exit` was reached. -/
structure SinkState where
  stderrAcc : String
  stdoutChunks : List OutChunk
  exited : Option Nat
deriving DecidableEq, Repr

/-- Embeds `printErrors` (channel variant, lines 64-76): the error sink drains
its channel, applying the `printError` logic to each error in order; an
`os.Exit` (EOF case) stops the process, so later errors are never consumed. -/
def printErrors (raw : Bool) : List Err → SinkState
  | [] => { stderrAcc := "", stdoutChunks := [], exited := none }
  | e :: rest =>
    let o := printError raw e
    match o.exitCode with
    | some c => { stderrAcc := o.stderrText, stdoutChunks := o.stdoutChunks, exited := some c }
    | none =>
      let s := printErrors raw rest
      { stderrAcc := o.stderrText ++ s.stderrAcc
        stdoutChunks := o.stdoutChunks ++ s.stdoutChunks
        exited := s.exited }

/-- Embeds the body of `printReceivedMessage` (`main.go` lines 78-84) /
`printReceivedMessages` loop body (channel variant, lines 78-86): raw mode
writes the exact message bytes; interactive mode writes a decorated line and
redraws the prompt. -/
def printReceivedMessage (raw : Bool) (msg : List Nat) : List OutChunk :=
  if raw then
    [OutChunk.bytes msg]
  else
    [OutChunk.text ("\r< " ++ cyan (String.mk (msg.map Char.ofNat)) ++ "\n> ")]

/-- Embeds `printReceivedMessages` (channel variant): the presenter drains the
`in` channel in order, rendering each message. -/
def printReceivedMessages (raw : Bool) (msgs : List (List Nat)) : List OutChunk :=
  match msgs with
  | [] => []
  | m :: rest => printReceivedMessage raw m ++ printReceivedMessages raw rest

/-- The bytes a stdout chunk puts on the stream: raw writes are their bytes;
formatted text contributes its UTF-8 bytes. -/
def chunkBytes : OutChunk → List Nat
  | OutChunk.bytes b => b
  | OutChunk.text s => s.toUTF8.toList.map (fun b => b.toNat)

/-- The bytes a list of stdout chunks puts on the stream, in order. -/
def chunksBytes : List OutChunk → List Nat
  | [] => []
  | c :: rest => chunkBytes c ++ chunksBytes rest

/-- Result of one `ws.Read(msg)` delivery attempt from the network side: either
a pending frame's bytes become available, or the read fails with an error. -/
inductive ReadResult where
  | success : List Nat → ReadResult
  | failure : Err → ReadResult
deriving DecidableEq, Repr

/-- Outcome of `n, err := ws.Read(msg)` on a buffer of `bufSize` bytes:
the byte count `n`, the bytes placed in the buffer, and the pending remainder
of the frame. -/
structure WsReadOut where
  n : Nat
  delivered : List Nat
  remainder : List Nat
deriving DecidableEq, Repr

/-- Modelled from the spec: the connection handle is an external collaborator
("dial" returns an opaque bidirectional byte-message channel; frame decoding
is out of scope).  The spec's reader contract — "continuously attempts to read
the next inbound frame from the connection into a fixed-size buffer of
`bufferSize` bytes, truncating/bounding each read to that capacity" — means a
read of a pending frame delivers `min (frame length) bufSize` bytes into the
buffer and leaves the rest of the frame pending. -/
def wsRead (bufSize : Nat) (frame : List Nat) : WsReadOut :=
  { n := min frame.length bufSize
    delivered := frame.take bufSize
    remainder := frame.drop bufSize }

/-- An event published by the inbound reader: a message on the `in` channel or
an error on the `errors` channel. -/
inductive Event where
  | inMsg : List Nat → Event
  | errEv : Err → Event
deriving DecidableEq, Repr

/-- One iteration of `inLoop` (channel variant, lines 52-61):

```go
n, err := ws.Read(msg)
if err != nil {
    errors <- err
    continue
}
in <- msg[:n]
```

On error it emits the error and continues; on success it emits exactly the
`n` bytes placed in the buffer (`msg[:n]`). -/
def inLoopStep (bufSize : Nat) : ReadResult → Event
  | ReadResult.failure e => Event.errEv e
  | ReadResult.success frame => Event.inMsg (wsRead bufSize frame).delivered

/-- Embeds `inLoop` (channel variant, lines 49-62): an unconditional `for` loop
over successive reads; here run over a finite prefix of the read stream.  The
loop body never breaks out, so every read result produces exactly one event. -/
def inLoop (bufSize : Nat) (reads : List ReadResult) : List Event :=
  reads.map (inLoopStep bufSize)

/-- Embeds the operator input loop (`main.go` / channel variant,
`for scanner.Scan() { out <- []byte(scanner.Text()); fmt.Print("> ") }`):
each scanned line (delimiter already stripped by the scanner, an external
stdlib collaborator) is enqueued verbatim, one outbound message per line, in
order.  The loop ends when the input stream reaches end-of-input. -/
def inputLoop (lines : List (List Nat)) : List (List Nat) :=
  match lines with
  | [] => []
  | l :: rest => l :: inputLoop rest

/-- Embeds `outLoop` (channel variant, lines 88-95): drains the `out` channel
in order; each message is written to the connection (`ws.Write(msg)`); a write
error (the outcome of the i-th write is given by `writeErr`) is emitted to the
error channel and the loop continues with the next message — one failed write
does not stop subsequent sends.  Returns the sequence of writes attempted on
the connection, in order, and the errors emitted.  The index argument counts
the writes performed so far. -/
def outLoop (writeErr : Nat → Option Err) : Nat → List (List Nat) → List (List Nat) × List Err
  | _, [] => ([], [])
  | i, msg :: rest =>
    let r := outLoop writeErr (i + 1) rest
    match writeErr i with
    | some e => (msg :: r.1, e :: r.2)
    | none => (msg :: r.1, r.2)

/-- The messages carried by a list of reader events, in order. -/
def eventMessages : List Event → List (List Nat)
  | [] => []
  | Event.inMsg m :: rest => m :: eventMessages rest
  | Event.errEv _ :: rest => eventMessages rest

/-- Accumulated outputs of the presenter and the error sink consuming one
interleaving of reader events. -/
structure RunOut where
  stdoutChunks : List OutChunk
  stderrText : String
  exited : Option Nat
deriving DecidableEq, Repr

/-- Runs the presenter (`printReceivedMessages`) and the error sink
(`printErrors`) over one interleaving of the events published by the reader:
each message event is rendered by the presenter's loop body, each error event
goes through the sink's loop body, and a terminal error exits the process
(`os.Exit`), so nothing after it is consumed. -/
def sessionRun (raw : Bool) : List Event → RunOut
  | [] => { stdoutChunks := [], stderrText := "", exited := none }
  | Event.inMsg m :: rest =>
    let r := sessionRun raw rest
    { stdoutChunks := printReceivedMessage raw m ++ r.stdoutChunks
      stderrText := r.stderrText
      exited := r.exited }
  | Event.errEv e :: rest =>
    let o := printError raw e
    match o.exitCode with
    | some c => { stdoutChunks := o.stdoutChunks, stderrText := o.stderrText, exited := some c }
    | none =>
      let r := sessionRun raw rest
      { stdoutChunks := o.stdoutChunks ++ r.stdoutChunks
        stderrText := o.stderrText ++ r.stderrText
        exited := r.exited }

/-- The concurrent tasks the orchestrator runs.  The operator input loop is
included because it is part of the start sequence, although it runs inline on
main's own control flow (not as a spawned goroutine). -/
inductive TaskId where
  | outLoopTask : TaskId
  | inputLoopTask : TaskId
  | inLoopTask : TaskId
  | presenterTask : TaskId
  | errorSinkTask : TaskId
deriving DecidableEq, Repr

/-- How the process leaves (or fails to leave) `main` after the dial:
`osExit c` is `os.Exit(c)` from within the error sink (deferred functions are
skipped); `panicked` is the `panic(err)` on dial failure (deferred functions
run while unwinding); `hang` means `wg.Wait()` never returns: the wait group
counter was incremented (lines 149, 153, 158 of the channel variant) but no
goroutine ever calls `wg.Done()`, so the counter never reaches zero. -/
inductive ExitKind where
  | osExit : Nat → ExitKind
  | panicked : ExitKind
  | hang : ExitKind
deriving DecidableEq, Repr

/-- Observable summary of one run of `main` after flag parsing (the
help/version early exits are out of scope of the session claims). -/
structure MainExec where
  printedConnecting : Bool
  printedConfirmation : Bool
  deferredCloseRan : Bool
  closeOnNilHandle : Bool
  startOrder : List TaskId
  outboundSent : List (List Nat)
  exit : ExitKind
deriving DecidableEq, Repr

/-- Turns the error sink's outcome into the process exit: `os.Exit(c)` from
`printErrors` ends the process with code `c`; otherwise `wg.Wait()` blocks
forever because no task ever calls `wg.Done()`. -/
def exitOfSink (s : SinkState) : ExitKind :=
  match s.exited with
  | some c => ExitKind.osExit c
  | none => ExitKind.hang

/-- Embeds `main` (channel variant, lines 128-177) from the dial on:

```go
ws, err := dial(url, protocol, origin)
if !raw { fmt.Printf("connecting to ...") }   // printed even when dial failed
defer ws.Close()                               // registered before the error check
if err != nil { panic(err) }                   // unwinding runs the deferred
                                               // Close — on a nil handle
if !raw { fmt.Printf("successfully connected ...") }
in := make(chan []byte);  wg.Add(1); defer close(in)
errors := make(chan error); wg.Add(1); defer close(errors)
if !raw {
    out := make(chan []byte); wg.Add(1); defer close(out)
    go outLoop(ws, out, errors)
    for scanner.Scan() { out <- []byte(scanner.Text()); ... }  // inline, to EOF
}
go inLoop(ws, errors, in)
go printReceivedMessages(in)
go printErrors(errors)
wg.Wait()
```

`dialOk` is the dial outcome, `stdinLines` the operator's input lines (a
finite list: the stream reaches end-of-input), `readErrs` the errors the
reader/writer deliver to the sink.  Two Go facts drive the exit modelling:
`os.Exit` never runs deferred functions, and `wg.Wait()` cannot return since
no `wg.Done()` exists anywhere in this variant, so after the dial the only
ways out of `main` are the dial-failure panic and the sink's `os.Exit`. -/
def mainExec (dialOk : Bool) (raw : Bool) (stdinLines : List (List Nat))
    (readErrs : List Err) : MainExec :=
  match dialOk with
  | false =>
    { printedConnecting := !raw
      printedConfirmation := false
      deferredCloseRan := true
      closeOnNilHandle := true
      startOrder := []
      outboundSent := []
      exit := ExitKind.panicked }
  | true =>
    { printedConnecting := !raw
      printedConfirmation := !raw
      deferredCloseRan := false
      closeOnNilHandle := false
      startOrder :=
        (if raw then [] else [TaskId.outLoopTask, TaskId.inputLoopTask])
          ++ [TaskId.inLoopTask, TaskId.presenterTask, TaskId.errorSinkTask]
      outboundSent := if raw then [] else inputLoop stdinLines
      exit := exitOfSink (printErrors raw readErrs) }

/-- Concatenation of a list of strings, in order (stderr output of successive
`fmt.Fprintf(os.Stderr, ...)` calls). -/
def joinStrings : List String → String
  | [] => ""
  | s :: rest => s ++ joinStrings rest

/-- Concatenation of a list of byte sequences, in order. -/
def concatBytes : List (List Nat) → List Nat
  | [] => []
  | m :: rest => m ++ concatBytes rest

end Wsd

namespace Wsd

example : (printError true (Err.other "boom")).exitCode = none := by decide

example : (printErrors false [Err.eof, Err.other "x"]).exited = some 0 := by decide

example : chunksBytes (printReceivedMessage true [112, 105, 110, 103]) = [112, 105, 110, 103] := by decide

example : (mainExec true false [] []).exit = ExitKind.hang := by decide

example : (mainExec true true [] [Err.eof]).exit = ExitKind.osExit 0 := by decide

example : (mainExec true true [] [Err.eof]).deferredCloseRan = false := by decide

example : inLoop 2 [ReadResult.failure (Err.other "x"), ReadResult.success [7, 8, 9]]
    = [Event.errEv (Err.other "x"), Event.inMsg [7, 8]] := by decide

example : (outLoop (fun _ => none) 0 [[1], [2]]).1 = [[1], [2]] := by decide

/-- A non-`io.EOF` error takes the transient branch of the sink: report on
stderr, prompt redraw on stdout when interactive, no exit. -/
theorem printError_transient (raw : Bool) (e : Err) (h : e ≠ Err.eof) :
    printError raw e =
      { stderrText := "\rerr " ++ red (errText e) ++ "\n"
        stdoutChunks := if raw then [] else [OutChunk.text "> "]
        exitCode := none } := by
  simp [printError, h]

/-- The `io.EOF` sentinel takes the terminal branch of the sink. -/
theorem printError_eof (raw : Bool) :
    printError raw Err.eof =
      { stderrText := "\r✝ EOF - connection closed by remote\n"
        stdoutChunks := []
        exitCode := some 0 } := rfl

/-- Splitting `chunksBytes` over a concatenation of chunk lists. -/
theorem chunksBytes_append (a b : List OutChunk) :
    chunksBytes (a ++ b) = chunksBytes a ++ chunksBytes b := by
  induction a with
  | nil => rfl
  | cons c rest ih => simp [chunksBytes, ih]

/-- When every delivered error is transient, the sink never exits, and its
stderr output is the concatenation of one report per error, in order. -/
theorem printErrors_all_transient (raw : Bool) :
    ∀ errs : List Err, (∀ e ∈ errs, e ≠ Err.eof) →
      (printErrors raw errs).exited = none
      ∧ (printErrors raw errs).stderrAcc
          = joinStrings (errs.map (fun e => "\rerr " ++ red (errText e) ++ "\n"))
  | [], _ => ⟨rfl, rfl⟩
  | e :: rest, h => by
    have he : e ≠ Err.eof := h e (List.mem_cons_self e rest)
    have ih := printErrors_all_transient raw rest (fun e2 hm => h e2 (List.mem_cons_of_mem e hm))
    refine ⟨?_, ?_⟩
    · simp [printErrors, printError_transient raw e he, ih.1]
    · simp [printErrors, printError_transient raw e he, joinStrings, ih.2]

/-- The operator input loop enqueues each scanned line verbatim, in order. -/
theorem inputLoop_eq (lines : List (List Nat)) : inputLoop lines = lines := by
  induction lines with
  | nil => rfl
  | cons l rest ih => simp [inputLoop, ih]

/-- The outbound writer attempts the writes in queue order, whatever the
per-write outcomes are. -/
theorem outLoop_writes (writeErr : Nat → Option Err) :
    ∀ (i : Nat) (out : List (List Nat)), (outLoop writeErr i out).1 = out
  | _, [] => rfl
  | i, msg :: rest => by
    have ih := outLoop_writes writeErr (i + 1) rest
    cases hw : writeErr i <;> simp [outLoop, hw, ih]

/-- In raw mode, as long as no terminal error is consumed, the bytes the
presenter-and-sink pair put on stdout are exactly the concatenation of the
received messages, whatever transient errors are interleaved. -/
theorem sessionRun_raw_stdout :
    ∀ events : List Event, (∀ ev ∈ events, ev ≠ Event.errEv Err.eof) →
      chunksBytes (sessionRun true events).stdoutChunks = concatBytes (eventMessages events)
  | [], _ => rfl
  | Event.inMsg m :: rest, h => by
    have ih := sessionRun_raw_stdout rest (fun ev hm => h ev (List.mem_cons_of_mem _ hm))
    simp [sessionRun, eventMessages, concatBytes, chunksBytes_append, printReceivedMessage,
      chunksBytes, chunkBytes, ih]
  | Event.errEv e :: rest, h => by
    have he : e ≠ Err.eof := by
      intro hc
      exact h (Event.errEv e) (List.mem_cons_self _ _) (by rw [hc])
    have ih := sessionRun_raw_stdout rest (fun ev hm => h ev (List.mem_cons_of_mem _ hm))
    simp [sessionRun, eventMessages, printError_transient true e he, chunksBytes_append,
      chunksBytes, ih]

/-- Claim C1 (counterexample): the claim says the connection is closed exactly
once on every exit path, including the clean-remote-close path.  On that path
the error sink calls `os.Exit(0)`, which skips Go's deferred functions, so the
deferred `ws.Close()` never runs: a session that dials successfully in raw
mode and then sees the remote close (`io.EOF`) exits with code 0 without the
program ever closing the connection. -/
theorem close_skipped_on_remote_close :
    (mainExec true true [] [Err.eof]).exit = ExitKind.osExit 0
    ∧ (mainExec true true [] [Err.eof]).deferredCloseRan = false := by decide

/-- Claim C1 (amended): `ws.Close()` is scheduled with `defer` right after the
dial, but after a successful dial `main` can only leave via the sink's
`os.Exit` (which skips deferred calls) or block forever in `wg.Wait()`, so the
deferred close actually runs exactly on the dial-failure path — where `main`
unwinds through `panic(err)` and the deferred call fires on a nil connection
handle. -/
theorem close_runs_only_on_dial_failure (dialOk raw : Bool)
    (stdinLines : List (List Nat)) (readErrs : List Err) :
    ((mainExec dialOk raw stdinLines readErrs).deferredCloseRan = true ↔ dialOk = false)
    ∧ (mainExec dialOk raw stdinLines readErrs).closeOnNilHandle
        = (mainExec dialOk raw stdinLines readErrs).deferredCloseRan := by
  cases dialOk <;> simp [mainExec]

/-- Claim C2: on the end-of-input path the spec expects the outbound path to be
drained, closed, and the process to exit 0; in the code, after the operator
input loop ends, `main` reaches `wg.Wait()` with a wait-group counter that was
incremented but is never decremented (no task calls `wg.Done()`; in the
`main.go` variant the only `wg.Done()` sits after an unconditional infinite
loop, and the deferred `close(out)` would only run after `wg.Wait()` returns),
so the process hangs instead of terminating: evaluated on an immediately
exhausted stdin — and on a one-line stdin whose line was forwarded — with no
transport errors, the exit is `hang`, not `osExit 0`. -/
theorem end_of_input_path_hangs :
    (mainExec true false [] []).exit = ExitKind.hang
    ∧ (mainExec true false [[104, 105]] []).exit = ExitKind.hang
    ∧ (mainExec true false [[104, 105]] []).outboundSent = [[104, 105]] := by decide

/-- Claim C3: when the error sink consumes the `io.EOF` sentinel (remote closed
the connection), it prints the distinguishable "connection closed by remote"
notice on stderr and immediately calls `os.Exit(0)`: the session exit is code
0, nothing after the notice is printed, and whatever is still pending —
further queued errors or operator input lines destined for the outbound
path — is abandoned unprocessed. -/
theorem remote_close_exits_zero (raw : Bool) (pending : List Err)
    (stdinLines : List (List Nat)) :
    printErrors raw (Err.eof :: pending) =
      { stderrAcc := "\r✝ EOF - connection closed by remote\n"
        stdoutChunks := []
        exited := some 0 }
    ∧ (mainExec true raw stdinLines (Err.eof :: pending)).exit = ExitKind.osExit 0 := by
  exact ⟨rfl, rfl⟩

/-- Claim C4: for transient (non-`io.EOF`) errors, the inbound reader emits the
error and goes straight to the next read — so after any number of consecutive
transient read errors it still delivers the next valid frame — and the error
sink prints every one of them on stderr without ever exiting. -/
theorem transient_errors_printed_never_fatal (bufSize : Nat) (raw : Bool)
    (errs : List Err) (frame : List Nat) (h : ∀ e ∈ errs, e ≠ Err.eof) :
    inLoop bufSize (errs.map ReadResult.failure ++ [ReadResult.success frame])
      = errs.map Event.errEv ++ [Event.inMsg (wsRead bufSize frame).delivered]
    ∧ (printErrors raw errs).exited = none
    ∧ (printErrors raw errs).stderrAcc
        = joinStrings (errs.map (fun e => "\rerr " ++ red (errText e) ++ "\n")) := by
  refine ⟨?_, (printErrors_all_transient raw errs h).1, (printErrors_all_transient raw errs h).2⟩
  simp [inLoop, List.map_map, Function.comp, inLoopStep]

/-- Witness for `transient_errors_printed_never_fatal` at two consecutive
transient errors followed by a one-byte frame, in raw mode. -/
theorem transient_errors_witness :
    (∀ e ∈ [Err.other "a", Err.other "b"], e ≠ Err.eof)
    ∧ (inLoop 4 ([Err.other "a", Err.other "b"].map ReadResult.failure
          ++ [ReadResult.success [9]])
        = [Err.other "a", Err.other "b"].map Event.errEv
            ++ [Event.inMsg (wsRead 4 [9]).delivered]
      ∧ (printErrors true [Err.other "a", Err.other "b"]).exited = none
      ∧ (printErrors true [Err.other "a", Err.other "b"]).stderrAcc
          = joinStrings ([Err.other "a", Err.other "b"].map
              (fun e => "\rerr " ++ red (errText e) ++ "\n"))) :=
  ⟨by decide,
   transient_errors_printed_never_fatal 4 true [Err.other "a", Err.other "b"] [9] (by decide)⟩

/-- Claim C5 (counterexample): the claim says the orchestrator starts the error
sink first, then the inbound reader, then the presenter.  In the code the
three `go` statements run in the order `inLoop`, `printReceivedMessages`,
`printErrors`: on a raw-mode session the first task started is the inbound
reader and the error sink is started last, so the claimed order is wrong. -/
theorem start_order_counterexample :
    (mainExec true true [] []).startOrder
      = [TaskId.inLoopTask, TaskId.presenterTask, TaskId.errorSinkTask]
    ∧ (mainExec true true [] []).startOrder.head? ≠ some TaskId.errorSinkTask := by decide

/-- Claim C5 (amended): after a successful dial the orchestrator prints a
confirmation (suppressed in raw mode); if not in raw mode it first starts the
outbound writer and then runs the operator input loop inline until
end-of-input; after that it starts, in order: the inbound reader, the message
presenter, and the error sink. -/
theorem start_order_amended (raw : Bool) (stdinLines : List (List Nat))
    (readErrs : List Err) :
    (mainExec true raw stdinLines readErrs).printedConfirmation = !raw
    ∧ (mainExec true raw stdinLines readErrs).startOrder
        = (if raw then [] else [TaskId.outLoopTask, TaskId.inputLoopTask])
            ++ [TaskId.inLoopTask, TaskId.presenterTask, TaskId.errorSinkTask] := by
  exact ⟨rfl, rfl⟩

/-- Claim C6: a read on a frame longer than `bufSize` delivers exactly the
first `bufSize` bytes into the buffer (`n = bufSize`), and the message the
reader emits is exactly the `n` bytes read (`msg[:n]`), never more. -/
theorem read_bounded_by_bufSize (bufSize : Nat) (frame : List Nat)
    (h : bufSize < frame.length) :
    (wsRead bufSize frame).n = bufSize
    ∧ (wsRead bufSize frame).delivered = frame.take bufSize
    ∧ (wsRead bufSize frame).delivered.length = bufSize
    ∧ inLoopStep bufSize (ReadResult.success frame)
        = Event.inMsg (wsRead bufSize frame).delivered
    ∧ (wsRead bufSize frame).delivered.length = (wsRead bufSize frame).n := by
  have hn : min frame.length bufSize = bufSize := Nat.min_eq_right (Nat.le_of_lt h)
  have hl : (frame.take bufSize).length = bufSize := by
    rw [List.length_take]
    exact Nat.min_eq_left (Nat.le_of_lt h)
  refine ⟨hn, rfl, hl, rfl, ?_⟩
  simpa [wsRead] using hl.trans hn.symm

/-- Witness for `read_bounded_by_bufSize` at `bufSize = 2` and a three-byte
frame. -/
theorem read_bounded_witness :
    2 < ([5, 6, 7] : List Nat).length
    ∧ ((wsRead 2 [5, 6, 7]).n = 2
      ∧ (wsRead 2 [5, 6, 7]).delivered = ([5, 6, 7] : List Nat).take 2
      ∧ (wsRead 2 [5, 6, 7]).delivered.length = 2
      ∧ inLoopStep 2 (ReadResult.success [5, 6, 7])
          = Event.inMsg (wsRead 2 [5, 6, 7]).delivered
      ∧ (wsRead 2 [5, 6, 7]).delivered.length = (wsRead 2 [5, 6, 7]).n) :=
  ⟨by decide, read_bounded_by_bufSize 2 [5, 6, 7] (by decide)⟩

/-- Claim C7: in raw mode the presenter writes exactly the message's bytes to
stdout — no prompt, no decoration, no added newline. -/
theorem raw_presenter_byte_exact (bufSize : Nat) (msg : List Nat)
    (_h : msg.length ≤ bufSize) :
    chunksBytes (printReceivedMessage true msg) = msg := by
  simp [printReceivedMessage, chunksBytes, chunkBytes]

/-- Witness for `raw_presenter_byte_exact` on the spec's `ping` scenario with
the default buffer size. -/
theorem raw_presenter_witness :
    ([112, 105, 110, 103] : List Nat).length ≤ 1024
    ∧ chunksBytes (printReceivedMessage true [112, 105, 110, 103]) = [112, 105, 110, 103] :=
  ⟨by decide, raw_presenter_byte_exact 1024 [112, 105, 110, 103] (by decide)⟩

/-- Claim C8: each operator input line becomes exactly one outbound message,
and the outbound writer attempts the writes on the connection in exactly the
order the lines were typed — the outbound pipeline (stdin line → `out` channel
→ `outLoop`) shares no state with the inbound path, and the result does not
depend on the per-write outcomes, so no interleaved inbound traffic or write
failure reorders it. -/
theorem outbound_lines_in_order (writeErr : Nat → Option Err)
    (lines : List (List Nat)) :
    (outLoop writeErr 0 (inputLoop lines)).1 = lines
    ∧ (outLoop writeErr 0 (inputLoop lines)).1.length = lines.length := by
  have h1 : (outLoop writeErr 0 (inputLoop lines)).1 = lines := by
    rw [outLoop_writes writeErr 0 (inputLoop lines), inputLoop_eq]
  exact ⟨h1, by rw [h1]⟩

/-- Claim C9: the sink's classification is identity with the `io.EOF`
sentinel: it exits exactly when the error value is `io.EOF`; any other error
value — whatever its cause, even one rendering as "EOF" — is transient, and
the sink keeps consuming after it. -/
theorem terminal_iff_eof_sentinel (raw : Bool) (e : Err) :
    ((printError raw e).exitCode = some 0 ↔ e = Err.eof)
    ∧ (∀ s, (printError raw (Err.other s)).exitCode = none)
    ∧ (∀ s rest, (printErrors raw (Err.other s :: rest)).exited
        = (printErrors raw rest).exited) := by
  refine ⟨?_, fun s => rfl, fun s rest => rfl⟩
  cases e with
  | eof => simp [printError]
  | other s => simp [printError]

/-- Claim C10: every error report — terminal or transient — is written to
stderr (the terminal notice and the transient report are the sink's stderr
text), while the sink's stdout side is at most a bare interactive prompt
redraw and is empty in raw mode; consequently, in raw mode the bytes on
stdout are exactly the concatenation of the received messages, however many
transient errors are interleaved. -/
theorem errors_to_stderr_raw_stdout_clean :
    (∀ (raw : Bool) (e : Err), (printError raw e).stdoutChunks = []
        ∨ (printError raw e).stdoutChunks = [OutChunk.text "> "])
    ∧ (∀ e : Err, (printError true e).stdoutChunks = [])
    ∧ (∀ (raw : Bool) (s : String), (printError raw (Err.other s)).stderrText
        = "\rerr " ++ red (errText (Err.other s)) ++ "\n")
    ∧ (∀ raw : Bool, (printError raw Err.eof).stderrText
        = "\r✝ EOF - connection closed by remote\n")
    ∧ (∀ events : List Event, (∀ ev ∈ events, ev ≠ Event.errEv Err.eof) →
        chunksBytes (sessionRun true events).stdoutChunks
          = concatBytes (eventMessages events)) := by
  refine ⟨?_, fun e => ?_, fun raw s => rfl, fun raw => rfl, sessionRun_raw_stdout⟩
  · intro raw e
    cases e with
    | eof => exact Or.inl (by simp [printError])
    | other s =>
      cases raw with
      | true => exact Or.inl (by simp [printError])
      | false => exact Or.inr (by simp [printError])
  · cases e with
    | eof => simp [printError]
    | other s => simp [printError]

/-- Witness for `errors_to_stderr_raw_stdout_clean` on a raw-mode interleaving
of two messages around a transient error. -/
theorem errors_to_stderr_witness :
    chunksBytes (sessionRun true
        [Event.inMsg [112], Event.errEv (Err.other "boom"), Event.inMsg [113]]).stdoutChunks
      = concatBytes (eventMessages
        [Event.inMsg [112], Event.errEv (Err.other "boom"), Event.inMsg [113]]) :=
  errors_to_stderr_raw_stdout_clean.2.2.2.2
    [Event.inMsg [112], Event.errEv (Err.other "boom"), Event.inMsg [113]] (by decide)

end Wsd
